import Mathlib

/-!
Verification of the size-constrained video segmentation engine of the videolib
repository (src/videolib/core/splitter.py, src/videolib/core/ffmpeg_wrapper.py,
src/videolib/utils/file_utils.py).

The Python code is shallowly embedded: strings are lists of characters, the
filesystem is a finite map from paths to byte sizes, machine floats used for
durations are modelled by rationals, and the external tool (ffmpeg / ffprobe)
is an oracle supplied by an environment record.  Python control flow that can
raise is modelled by an explicit ok / raised result type that also carries the
state, because Python exceptions do not roll back side effects.
-/

set_option maxHeartbeats 1600000

namespace VideoLib

/-- Python strings are modelled as lists of characters. -/
abbrev Str := List Char

/-- View a Lean string literal as the model type. -/
def str (s : String) : Str := s.data

/-- Whitespace characters removed by Python str.strip (ASCII fragment). -/
def isSpc (c : Char) : Bool :=
  c == ' ' || c == '\t' || c == '\n' || c == '\r' || c == '\x0b' || c == '\x0c'

/-- ASCII decimal digit test (Python str.isdigit on the ASCII fragment). -/
def isDigitCh (c : Char) : Bool :=
  decide ('0' ≤ c ∧ c ≤ '9')

/-- Python str.strip(): drop leading and trailing whitespace. -/
def pyStrip (s : Str) : Str :=
  ((s.dropWhile isSpc).reverse.dropWhile isSpc).reverse

/-- First argument starts with the second (Python str.startswith). -/
def strStartsWith : Str → Str → Bool
  | _, [] => true
  | [], _ :: _ => false
  | c :: cs, p :: ps => c == p && strStartsWith cs ps

/-- First argument ends with the second (Python str.endswith). -/
def strEndsWith (s p : Str) : Bool :=
  strStartsWith s.reverse p.reverse

/-- Drop the last n characters (Python slice s[:-n] combined with s[a:]). -/
def dropLastN (s : Str) (n : Nat) : Str :=
  (s.reverse.drop n).reverse

/-- Lexicographic comparison of strings by code point, the order Python sorted
    and list.sort use on str. -/
def strLe : Str → Str → Bool
  | [], _ => true
  | _ :: _, [] => false
  | a :: as, b :: bs => if a = b then strLe as bs else decide (a < b)

/-- Propositional form of strLe, for the Mathlib sorting API. -/
def strLeP (a b : Str) : Prop := strLe a b = true

instance : DecidableRel strLeP := fun a b => inferInstanceAs (Decidable (strLe a b = true))

/-- Python sorted on a list of strings: some sorted permutation; insertion sort
    is extensionally the unique such function because strLeP is total,
    transitive and antisymmetric. -/
def pySorted (l : List Str) : List Str :=
  List.insertionSort strLeP l

/-- The filesystem: a finite map from paths to byte sizes.  A path is present
    exactly when the file exists; a zero-byte file is present with size 0. -/
abbrev Fs := List (Str × Nat)

/-- os.path.getsize wrapped by FileManager.get_file_size (file_utils.py 80-86):
    some size when the file exists, none for the caught OSError. -/
def fsSize (fs : Fs) (p : Str) : Option Nat :=
  (fs.find? (fun e => e.1 == p)).map (fun e => e.2)

/-- Remove a path from the filesystem. -/
def fsRemove (fs : Fs) (p : Str) : Fs :=
  fs.filter (fun e => !(e.1 == p))

/-- Create or overwrite a path with the given size. -/
def fsSet (fs : Fs) (p : Str) (n : Nat) : Fs :=
  (p, n) :: fsRemove fs p

/-- Python truthiness of FileManager.get_file_size results: falsy when the file
    is missing (None) and also when it exists with size 0. -/
def truthySize : Option Nat → Bool
  | some (_ + 1) => true
  | _ => false

/-- Observable effects of a run, recorded in order: ffprobe child-process
    invocations, SegmentCommand construction sites together with their evaluated
    duration argument, and file copies, moves and deletions. -/
inductive Event where
  | probeEv : Str → Event
  | segCtor : Str → Str → ℚ → Event
  | copyEv : Str → Str → Event
  | moveEv : Str → Str → Event
  | delEv : Str → Event
deriving DecidableEq

/-- Mutable state threaded through a run: the filesystem, the event trace, and
    the supply counter for uuid suffixes. -/
structure St where
  fs : Fs
  trace : List Event
  nuid : Nat
deriving DecidableEq

/-- Append one event to the trace. -/
def addEvent (st : St) (e : Event) : St :=
  { st with trace := st.trace ++ [e] }

/-- Result of a Python fragment: a normal value or a raised exception, in both
    cases with the state at that moment (exceptions do not roll back effects). -/
inductive PyR (α : Type) where
  | ok : St → α → PyR α
  | raised : St → Str → PyR α
deriving DecidableEq

/-- The state a run ended in, whether it returned or raised. -/
def stOf {α : Type} : PyR α → St
  | PyR.ok st _ => st
  | PyR.raised st _ => st

/-- Message of the TypeError raised when a Python comparison receives None on
    the left and an int on the right, as in size comparisons after the
    compared file was deleted. -/
def noneLeError : Str :=
  str "TypeError: le not supported between instances of NoneType and int"

/-- Message of the TypeError raised when SegmentCommand is constructed with
    five positional arguments although its init declares four besides self. -/
def ctorArityError : Str :=
  str "TypeError: SegmentCommand init takes 5 positional arguments but 6 were given"

/-- One stream object of the ffprobe JSON document (codec_type, codec_name and,
    for video streams, width and height). -/
structure StreamObj where
  codec_type : Option Str := none
  codec_name : Option Str := none
  width : Option Int := none
  height : Option Int := none
deriving DecidableEq

/-- Container-level object of the ffprobe JSON document; ffprobe emits duration
    and bit_rate as numeric strings. -/
structure FormatObj where
  duration : Option Str := none
  bit_rate : Option Str := none
  format_name : Option Str := none
deriving DecidableEq

/-- The parsed ffprobe JSON document. -/
structure FfprobeData where
  format : FormatObj := {}
  streams : List StreamObj := []
deriving DecidableEq

/-- All characters are ASCII digits. -/
def allDigits (s : Str) : Bool := s.all isDigitCh

/-- Numeric value of a digit string. -/
def digitsNum (s : Str) : Nat :=
  s.foldl (fun a c => 10 * a + (c.toNat - 48)) 0

/-- Python float() on plain decimal strings, the numeric-string format ffprobe
    emits for duration: optional sign, integer part, optional fractional part,
    at least one digit.  none models the ValueError the source catches. -/
def parseDecQ (s : Str) : Option ℚ :=
  let sb : ℚ × Str :=
    match s with
    | '-' :: rest => (-1, rest)
    | '+' :: rest => (1, rest)
    | _ => (1, s)
  match (sb.2.splitOn '.') with
  | [ip] => if ip ≠ [] ∧ allDigits ip then some (sb.1 * digitsNum ip) else none
  | [ip, fp] =>
      if (ip ≠ [] ∨ fp ≠ []) ∧ allDigits ip ∧ allDigits fp then
        some (sb.1 * ((digitsNum ip : ℚ) + (digitsNum fp : ℚ) / (10 : ℚ) ^ fp.length))
      else none
  | _ => none

/-- Python int() on decimal strings (optional sign, digits only); none models
    the ValueError the source catches. -/
def parseIntZ (s : Str) : Option Int :=
  match s with
  | '-' :: rest => if rest ≠ [] ∧ allDigits rest then some (-(digitsNum rest : Int)) else none
  | '+' :: rest => if rest ≠ [] ∧ allDigits rest then some (digitsNum rest : Int) else none
  | _ => if s ≠ [] ∧ allDigits s then some (digitsNum s : Int) else none

/-- Parsed media information (ffmpeg_wrapper.py MediaInfo, lines 13-23). -/
structure MediaInfo where
  duration : Option ℚ := none
  video_codec : Option Str := none
  audio_codec : Option Str := none
  format_name : Option Str := none
  size_bytes : Option Nat := none
  width : Option Int := none
  height : Option Int := none
  bitrate : Option Int := none
deriving DecidableEq

/-- Python truthiness of a codec name slot: None and the empty string are
    falsy, so `not video_codec` is true for both. -/
def truthyName : Option Str → Bool
  | some (_ :: _) => true
  | _ => false

/-- Stream scan of _parse_media_info (ffmpeg_wrapper.py 114-120): a stream of
    codec_type video overwrites codec, width and height while the recorded
    video codec is still falsy; audio streams likewise for the audio codec. -/
def streamFold :
    List StreamObj → Option Str → Option Str → Option Int → Option Int →
      Option Str × Option Str × Option Int × Option Int
  | [], vc, ac, w, h => (vc, ac, w, h)
  | s :: rest, vc, ac, w, h =>
    if s.codec_type == some (str "video") && !truthyName vc then
      streamFold rest s.codec_name ac s.width s.height
    else if s.codec_type == some (str "audio") && !truthyName ac then
      streamFold rest vc s.codec_name w h
    else
      streamFold rest vc ac w h

/-- FFmpegWrapper._parse_media_info (ffmpeg_wrapper.py 96-145).  sizeOnDisk is
    the os.path.getsize result (none models the caught OSError).  A duration or
    bit_rate field that is missing, empty (falsy) or non-numeric yields none. -/
def parseMediaInfo (data : FfprobeData) (sizeOnDisk : Option Nat) : MediaInfo :=
  let fmt := data.format
  let dur : Option ℚ :=
    match fmt.duration with
    | none => none
    | some s => if s = [] then none else parseDecQ s
  let sf := streamFold data.streams none none none none
  let br : Option Int :=
    match fmt.bit_rate with
    | none => none
    | some s => if s = [] then none else parseIntZ s
  { duration := dur, video_codec := sf.1, audio_codec := sf.2.1,
    format_name := fmt.format_name, size_bytes := sizeOnDisk,
    width := sf.2.2.1, height := sf.2.2.2, bitrate := br }

/-- Outcome of one ffprobe child-process run on an existing file, supplied by
    the environment: non-zero exit with captured stderr, unparseable stdout, or
    a parsed JSON document. -/
inductive ProbeRaw where
  | procFail : Str → ProbeRaw
  | badJson : ProbeRaw
  | okData : FfprobeData → ProbeRaw

/-- Behaviour of everything outside the embedded code: ffprobe runs, the
    external segmenter (for an input, pattern and duration: none models a
    non-zero exit, some gives the files the tool wrote with their sizes),
    OS-level success of copies and moves, and the uuid hex-suffix supply. -/
structure Env where
  probe : Str → ProbeRaw
  seg : Str → Str → ℚ → Option (List (Str × Nat))
  copyOk : Str → Str → Bool
  moveOk : Str → Str → Bool
  uid : Nat → Str

/-- Result record of an FFmpeg operation (ffmpeg_wrapper.py FFmpegResult). -/
structure FFmpegRes where
  success : Bool
  error_message : Option Str := none
  output_files : List Str := []
  media_info : Option MediaInfo := none
deriving DecidableEq

/-- FFmpegWrapper.probe_media (ffmpeg_wrapper.py 69-94): existence check first
    (no child process), then one ffprobe run recorded as a probeEv event, then
    parsing per _parse_media_info. -/
def probeMedia (env : Env) (st : St) (path : Str) : St × FFmpegRes :=
  if (fsSize st.fs path).isNone then
    (st, { success := false, error_message := some (str "File not found: " ++ path) })
  else
    let st1 := addEvent st (Event.probeEv path)
    match env.probe path with
    | ProbeRaw.procFail err =>
        (st1, { success := false, error_message := some (str "FFprobe failed: " ++ err) })
    | ProbeRaw.badJson =>
        (st1, { success := false, error_message := some (str "JSON decode error") })
    | ProbeRaw.okData data =>
        (st1, { success := true, media_info := some (parseMediaInfo data (fsSize st1.fs path)) })

/-- FileManager.copy_file (file_utils.py 43-55): false on a missing source or
    an OS-level failure; on success the destination receives the size of the
    source and a copyEv event is recorded. -/
def fmCopy (env : Env) (st : St) (src dst : Str) : St × Bool :=
  match fsSize st.fs src with
  | none => (st, false)
  | some n =>
    if env.copyOk src dst then
      ({ st with fs := fsSet st.fs dst n, trace := st.trace ++ [Event.copyEv src dst] }, true)
    else (st, false)

/-- FileManager.move_file (file_utils.py 57-69): like copy but the source is
    removed. -/
def fmMove (env : Env) (st : St) (src dst : Str) : St × Bool :=
  match fsSize st.fs src with
  | none => (st, false)
  | some n =>
    if env.moveOk src dst then
      (addEvent { st with fs := fsSet (fsRemove st.fs src) dst n } (Event.moveEv src dst), true)
    else (st, false)

/-- FileManager.delete_file (file_utils.py 71-78): os.remove succeeds exactly
    on existing paths; the caught OSError yields false. -/
def fmDelete (st : St) (p : Str) : St × Bool :=
  if (fsSize st.fs p).isSome then
    ({ st with fs := fsRemove st.fs p, trace := st.trace ++ [Event.delEv p] }, true)
  else (st, false)

/-- Parameters declared by SegmentCommand init besides self in the source
    (ffmpeg_wrapper.py 198): wrapper, input_path, output_pattern,
    segment_duration. -/
def segmentCommandInitArity : Nat := 4

/-- Positional arguments VideoSplitter supplies at both SegmentCommand
    construction sites (splitter.py 137 and 213): the ffmpeg wrapper, the input
    path, the output pattern, the pattern keyword, and the segment duration. -/
def splitterSegmentCallArity : Nat := 5

/-- SegmentCommand fields relevant to execution (ffmpeg_wrapper.py 195-216). -/
structure SegmentCmd where
  input_path : Str
  output_pattern : Str
  segment_duration : ℚ
deriving DecidableEq

/-- Python call protocol at the splitter construction sites: when the number of
    supplied positional arguments differs from the declared parameter count the
    call raises TypeError before the body of init runs; otherwise the fields
    are bound.  The pattern keyword argument has no field because the init in
    the source declares none. -/
def constructSegmentCmd (st : St) (input outPattern _kw : Str) (dur : ℚ) : PyR SegmentCmd :=
  if splitterSegmentCallArity = segmentCommandInitArity then
    PyR.ok st (SegmentCmd.mk input outPattern dur)
  else PyR.raised st ctorArityError

/-- SegmentCommand.execute (ffmpeg_wrapper.py 218-241): one run of the external
    segmenter, whose behaviour the environment supplies (none models a non-zero
    exit with captured stderr, some gives the files the tool wrote with their
    sizes, which appear on disk and which discovery then returns), followed by
    the ascending sort of line 234.  Directory creation has no observable
    effect in this model. -/
def segExecute (env : Env) (st : St) (cmd : SegmentCmd) : St × FFmpegRes :=
  match env.seg cmd.input_path cmd.output_pattern cmd.segment_duration with
  | none =>
      (st, { success := false, error_message := some (str "FFmpeg segmentation failed") })
  | some produced =>
      let st1 := { st with fs := produced.foldl (fun fs e => fsSet fs e.1 e.2) st.fs }
      (st1, { success := true, output_files := pySorted (produced.map (fun e => e.1)) })

/-- SplitOptions (splitter.py 10-18). -/
structure SplitOptions where
  source_file : Str
  output_name : Str
  output_extension : Str
  max_size_bytes : Int
  safety_factor : ℚ := 95 / 100
  max_rounds : Int := 4
deriving DecidableEq

/-- SplitResult (splitter.py 20-33): success flag, output files, oversized
    files, copied flag, optional error message. -/
structure SplitResult where
  success : Bool
  output_files : List Str := []
  oversized_files : List Str := []
  was_copied : Bool := false
  error_message : Option Str := none
deriving DecidableEq

/-- Message of the AttributeError for attribute access on None; unreachable in
    runs where probe success carries a parsed document. -/
def attrError : Str := str "AttributeError: NoneType object has no attribute duration"

/-- VideoSplitter._validate_options (splitter.py 100-112): the raised
    ValidationError message, or none when validation passes.  The existence
    check is Python truthiness of get_file_size, so a missing file and an
    existing zero-byte file both fail it. -/
def validateOptions (fs : Fs) (o : SplitOptions) : Option Str :=
  if truthySize (fsSize fs o.source_file) = false then
    some (str "Source file not found: " ++ o.source_file)
  else if o.max_size_bytes ≤ 0 then some (str "Max size must be greater than 0")
  else if pyStrip o.output_name = [] then some (str "Output name cannot be empty")
  else if pyStrip o.output_extension = [] then some (str "Output extension cannot be empty")
  else none

/-- Base part of segment_path.rsplit with one dot (splitter.py 206). -/
def rsplitBase (s : Str) : Str :=
  if s.contains '.' then
    dropLastN s ((s.reverse.takeWhile (fun c => !(c == '.'))).length + 1)
  else s

/-- Extension clause of splitter.py 207: the part after the last dot, or mp4
    when the path has no dot. -/
def rsplitExt (s : Str) : Str :=
  if s.contains '.' then (s.reverse.takeWhile (fun c => !(c == '.'))).reverse
  else str "mp4"

mutual

/-- VideoSplitter._split_oversized_segment (splitter.py 185-225).  The int
    round counter only matters through the test max_rounds <= 0 (line 187) and
    the decrement max_rounds - 1 (line 222), so it is carried as the natural
    number max_rounds.toNat, which preserves both.  A falsy probe duration
    (absent or zero) returns the segment unchanged (line 192); a vanished file
    makes the size comparison of line 198 raise TypeError; the SegmentCommand
    construction of line 213 follows the call protocol of constructSegmentCmd,
    its site recorded as a segCtor event with the evaluated duration argument. -/
def splitOversized (env : Env) (st : St) (segPath : Str) (maxSize : Int) :
    Nat → PyR (List Str)
  | 0 => PyR.ok st [segPath]
  | fuel + 1 =>
    let pr := probeMedia env st segPath
    if pr.2.success = false then PyR.ok pr.1 [segPath]
    else
      match pr.2.media_info with
      | none => PyR.raised pr.1 attrError
      | some mi =>
        match mi.duration with
        | none => PyR.ok pr.1 [segPath]
        | some d =>
          if d = 0 then PyR.ok pr.1 [segPath]
          else
            match fsSize pr.1.fs segPath with
            | none => PyR.raised pr.1 noneLeError
            | some cur =>
              if (cur : Int) ≤ maxSize then PyR.ok pr.1 [segPath]
              else
                let bytesPerSec : ℚ := (cur : ℚ) / d
                let newDur : ℚ := max (1 / 2) ((maxSize : ℚ) / bytesPerSec * (95 / 100))
                let tempPattern := rsplitBase segPath ++ str "_sub_" ++
                  env.uid pr.1.nuid ++ str "_%03d." ++ rsplitExt segPath
                let st2 := addEvent { pr.1 with nuid := pr.1.nuid + 1 }
                  (Event.segCtor segPath tempPattern newDur)
                match constructSegmentCmd st2 segPath tempPattern (str "%03d") newDur with
                | PyR.raised st' e => PyR.raised st' e
                | PyR.ok st3 cmd =>
                  let er := segExecute env st3 cmd
                  if er.2.success = false then PyR.ok er.1 [segPath]
                  else splitOversizedChildren env er.1 er.2.output_files maxSize fuel
termination_by fuel => (fuel, 0)

/-- Loop of splitter.py 220-223: each produced child is split recursively with
    the decremented round counter, the results concatenated in order. -/
def splitOversizedChildren (env : Env) (st : St) (files : List Str)
    (maxSize : Int) (fuel : Nat) : PyR (List Str) :=
  match files with
  | [] => PyR.ok st []
  | f :: rest =>
    match splitOversized env st f maxSize fuel with
    | PyR.raised st' e => PyR.raised st' e
    | PyR.ok st' subs =>
      match splitOversizedChildren env st' rest maxSize fuel with
      | PyR.raised st'' e => PyR.raised st'' e
      | PyR.ok st'' more => PyR.ok st'' (subs ++ more)
termination_by (fuel, files.length + 1)

end

/-- Inner check of _process_segments (splitter.py 165-171): each split file is
    sized and routed to the final or oversized accumulator; for a missing file
    get_file_size returns None and its comparison with an int raises TypeError.
    Reads the state without changing it. -/
def checkSplits (st : St) (maxSize : Int) :
    List Str → List Str → List Str → PyR (List Str × List Str)
  | [], finals, overs => PyR.ok st (finals, overs)
  | f :: rest, finals, overs =>
    match fsSize st.fs f with
    | none => PyR.raised st noneLeError
    | some sz =>
      if (sz : Int) ≤ maxSize then checkSplits st maxSize rest (finals ++ [f]) overs
      else checkSplits st maxSize rest finals (overs ++ [f])

/-- Main loop of _process_segments (splitter.py 151-171): in-budget segments
    are accepted; an oversized segment is handed to the recursive splitter,
    then the original file is deleted unconditionally (line 163), then the
    split results are sized and routed. -/
def processLoop (env : Env) (o : SplitOptions) :
    List Str → St → List Str → List Str → PyR (List Str × List Str)
  | [], st, finals, overs => PyR.ok st (finals, overs)
  | seg :: rest, st, finals, overs =>
    match fsSize st.fs seg with
    | none => PyR.raised st noneLeError
    | some sz =>
      if (sz : Int) ≤ o.max_size_bytes then
        processLoop env o rest st (finals ++ [seg]) overs
      else
        match splitOversized env st seg o.max_size_bytes o.max_rounds.toNat with
        | PyR.raised st' e => PyR.raised st' e
        | PyR.ok st' splitFiles =>
          let st2 := (fmDelete st' seg).1
          match checkSplits st2 o.max_size_bytes splitFiles finals overs with
          | PyR.raised st'' e => PyR.raised st'' e
          | PyR.ok _ fo => processLoop env o rest st2 fo.1 fo.2

/-- VideoSplitter._process_segments (splitter.py 146-183): run the loop, then
    when exactly one final file remains and nothing is oversized rename it to
    the canonical name (keeping the old name if the move fails), and return
    both lists sorted. -/
def processSegments (env : Env) (st : St) (segments : List Str)
    (o : SplitOptions) : PyR SplitResult :=
  match processLoop env o segments st [] [] with
  | PyR.raised st' e => PyR.raised st' e
  | PyR.ok st' fo =>
    match fo.1, fo.2 with
    | [f], [] =>
      let finalName := o.output_name ++ str "." ++ o.output_extension
      let mv := fmMove env st' f finalName
      let finals := if mv.2 then [finalName] else [f]
      PyR.ok mv.1 (SplitResult.mk true (pySorted finals) (pySorted []) false none)
    | finals, overs =>
      PyR.ok st' (SplitResult.mk true (pySorted finals) (pySorted overs) false none)

/-- VideoSplitter._copy_file (splitter.py 114-128): copy the source to the
    canonical output name. -/
def copyFileStep (env : Env) (st : St) (o : SplitOptions) : PyR SplitResult :=
  let destPath := o.output_name ++ str "." ++ o.output_extension
  let cp := fmCopy env st o.source_file destPath
  if cp.2 then PyR.ok cp.1 (SplitResult.mk true [destPath] [] true none)
  else PyR.ok cp.1 (SplitResult.mk false [] [] false (some (str "Failed to copy file")))

/-- VideoSplitter._perform_segmentation (splitter.py 130-144): build the
    three-digit placeholder pattern, construct the SegmentCommand (the site is
    recorded as a segCtor event with the evaluated duration argument, then the
    call protocol applies), execute it, and process the produced segments. -/
def performSegmentation (env : Env) (st : St) (o : SplitOptions) (segDur : ℚ) :
    PyR SplitResult :=
  let patternKeyword := str "%03d"
  let pattern := o.output_name ++ str "_" ++ patternKeyword ++ str "." ++ o.output_extension
  let st1 := addEvent st (Event.segCtor o.source_file pattern segDur)
  match constructSegmentCmd st1 o.source_file pattern patternKeyword segDur with
  | PyR.raised st' e => PyR.raised st' e
  | PyR.ok st2 cmd =>
    let er := segExecute env st2 cmd
    if er.2.success = false then
      PyR.ok er.1 (SplitResult.mk false [] [] false er.2.error_message)
    else processSegments env er.1 er.2.output_files o

/-- VideoSplitter.split_by_size (splitter.py 71-98): validate, take the copy
    fast path when the source already fits, otherwise probe, reject a falsy or
    non-positive duration, compute the segment duration from the empirical
    throughput, and segment. -/
def splitBySize (env : Env) (st : St) (o : SplitOptions) : PyR SplitResult :=
  match validateOptions st.fs o with
  | some e => PyR.ok st (SplitResult.mk false [] [] false (some e))
  | none =>
    match fsSize st.fs o.source_file with
    | none => PyR.raised st noneLeError
    | some n =>
      if (n : Int) ≤ o.max_size_bytes then copyFileStep env st o
      else
        let pr := probeMedia env st o.source_file
        if pr.2.success = false then
          PyR.ok pr.1 (SplitResult.mk false [] [] false pr.2.error_message)
        else
          match pr.2.media_info with
          | none => PyR.raised pr.1 attrError
          | some mi =>
            match mi.duration with
            | none =>
              PyR.ok pr.1 (SplitResult.mk false [] [] false
                (some (str "Could not determine video duration")))
            | some d =>
              if d ≤ 0 then
                PyR.ok pr.1 (SplitResult.mk false [] [] false
                  (some (str "Could not determine video duration")))
              else
                let bytesPerSec : ℚ := (n : ℚ) / d
                let segDur : ℚ :=
                  max (1 / 2) ((o.max_size_bytes : ℚ) / bytesPerSec * o.safety_factor)
                performSegmentation env pr.1 o segDur

/-- posixpath.split: head and tail around the last slash; trailing slashes are
    stripped from a non-empty head unless the head is all slashes. -/
def pathSplit (p : Str) : Str × Str :=
  let tail := (p.reverse.takeWhile (fun c => !(c == '/'))).reverse
  let headRaw := dropLastN p tail.length
  let head :=
    if headRaw ≠ [] ∧ ¬ (headRaw.all (fun c => c == '/')) = true then
      (headRaw.reverse.dropWhile (fun c => c == '/')).reverse
    else headRaw
  (head, tail)

/-- posixpath.join of two components. -/
def pathJoin (a b : Str) : Str :=
  if strStartsWith b (str "/") then b
  else if a = [] ∨ strEndsWith a (str "/") then a ++ b
  else a ++ str "/" ++ b

/-- The output directory fallback of ffmpeg_wrapper.py 264 and 279: the dirname
    of the pattern, or the current-directory dot when it is empty. -/
def outputDirOf (pat : Str) : Str :=
  let d := (pathSplit pat).1
  if d = [] then str "." else d

/-- Recursion core of fnmatch: each step consumes a pattern or a name
    character, so a budget of pattern length plus name length always suffices
    and the zero-budget equation is unreachable from the wrapper below. -/
def fnmatchFuel : Nat → List Char → List Char → Bool
  | _, [], [] => true
  | _, [], _ :: _ => false
  | 0, _ :: _, _ => false
  | fuel + 1, '*' :: ps, name =>
    fnmatchFuel fuel ps name ||
      (match name with
       | [] => false
       | _ :: ns => fnmatchFuel fuel ('*' :: ps) ns)
  | _ + 1, '?' :: _, [] => false
  | fuel + 1, '?' :: ps, _ :: ns => fnmatchFuel fuel ps ns
  | _ + 1, _ :: _, [] => false
  | fuel + 1, p :: ps, n :: ns => p == n && fnmatchFuel fuel ps ns

/-- fnmatch.fnmatch for patterns whose magic characters are the star (any
    sequence, possibly empty) and the question mark (any one character); every
    other character matches literally.  Bracket classes do not occur in the
    patterns the resolver is applied to here. -/
def fnmatchChars (p n : List Char) : Bool :=
  fnmatchFuel (p.length + n.length) p n

/-- The hidden-file rule of glob: entries starting with a dot are matched only
    when the pattern component itself starts with a dot. -/
def globFilter (basePat : Str) (names : List Str) : List Str :=
  let names1 :=
    if basePat.head? = some '.' then names
    else names.filter (fun n => !(n.head? == some '.'))
  names1.filter (fun n => fnmatchChars basePat n)

/-- glob.glob for a single-directory pattern with magic only in the basename:
    list the directory, filter by fnmatch with the hidden-file rule, and join
    each hit onto the directory part (bare names when there is none). -/
def globGlob (listing : List Str) (pat : Str) : List Str :=
  let dp := pathSplit pat
  (globFilter dp.2 listing).map (fun n => pathJoin dp.1 n)

/-- Recursion core of Python str.replace on a fuel budget: each step consumes
    at least one character (the non-empty needle check guards the jump), so a
    budget of the string length suffices and the zero-budget equation is
    unreachable from the wrapper below. -/
def strReplaceFuel : Nat → Str → Str → Str → Str
  | _, [], _, _ => []
  | 0, s, _, _ => s
  | fuel + 1, c :: rest, old, new =>
    if old ≠ [] ∧ strStartsWith (c :: rest) old = true then
      new ++ strReplaceFuel fuel ((c :: rest).drop old.length) old new
    else c :: strReplaceFuel fuel rest old new

/-- Python str.replace: replace every non-overlapping occurrence scanned from
    the left.  An empty needle returns the string unchanged (that case does not
    arise in the source, which replaces the five-character placeholder). -/
def strReplace (s old new : Str) : Str :=
  strReplaceFuel s.length s old new

/-- Recursion core of Python str.split with a substring separator, on the same
    fuel discipline as strReplaceFuel. -/
def strSplitFuel : Nat → Str → Str → List Str
  | _, [], _ => [[]]
  | 0, s, _ => [s]
  | fuel + 1, c :: rest, sep =>
    if sep ≠ [] ∧ strStartsWith (c :: rest) sep = true then
      [] :: strSplitFuel fuel ((c :: rest).drop sep.length) sep
    else
      match strSplitFuel fuel rest sep with
      | [] => [[c]]
      | p :: ps => (c :: p) :: ps

/-- Python str.split with a non-empty separator string: the parts between
    non-overlapping occurrences scanned from the left. -/
def strSplitSeq (s sep : Str) : List Str :=
  strSplitFuel s.length s sep

/-- Characters Python re.escape escapes since version 3.7 (setup.py declares
    python_requires at least 3.7): regex metacharacters and whitespace.  The
    percent sign is not among them. -/
def reSpecial (c : Char) : Bool :=
  c == '(' || c == ')' || c == '[' || c == ']' || c == '\x7b' || c == '\x7d' ||
  c == '?' || c == '*' || c == '+' || c == '-' || c == '|' || c == '^' ||
  c == '$' || c == '\\' || c == '.' || c == '&' || c == '~' || c == '#' ||
  c == ' ' || c == '\t' || c == '\n' || c == '\r' || c == '\x0b' || c == '\x0c'

/-- Python re.escape for version 3.7 and later: prepend a backslash to each
    special character, leave everything else unchanged. -/
def reEscape (s : Str) : Str :=
  s.foldr (fun c acc => if reSpecial c then '\\' :: c :: acc else c :: acc) []

/-- Tokens of the regex dialect tier two produces: re.escape output (escaped
    metacharacters, all other characters literal) with the fixed-width digit
    token optionally substituted for the escaped placeholder. -/
inductive RTok where
  | lit : Char → RTok
  | digit3 : RTok
deriving DecidableEq

/-- Tokenizer for that dialect: backslash d with a three-in-braces quantifier
    is the digit token, a backslash makes the following character literal, any
    other character is literal. -/
def parseToks : Str → List RTok
  | [] => []
  | '\\' :: 'd' :: '\x7b' :: '3' :: '\x7d' :: rest => RTok.digit3 :: parseToks rest
  | '\\' :: c :: rest => RTok.lit c :: parseToks rest
  | c :: rest => RTok.lit c :: parseToks rest

/-- re.match of that dialect: anchored at the start of the name, not at its
    end. -/
def reMatchTok : List RTok → Str → Bool
  | [], _ => true
  | RTok.lit c :: ts, x :: xs => c == x && reMatchTok ts xs
  | RTok.lit _ :: _, [] => false
  | RTok.digit3 :: ts, x1 :: x2 :: x3 :: xs =>
    isDigitCh x1 && isDigitCh x2 && isDigitCh x3 && reMatchTok ts xs
  | RTok.digit3 :: _, _ => false

/-- Tier one of SegmentCommand._find_segment_files (ffmpeg_wrapper.py 247-253):
    replace the placeholder with a star and glob. -/
def tierGlob (listing : List Str) (outputPat : Str) : List Str :=
  globGlob listing (strReplace outputPat (str "%03d") (str "*"))

/-- Tier two (ffmpeg_wrapper.py 255-274): re.escape the pattern, substitute the
    escaped placeholder by the fixed-width digit regex, and re.match every
    directory entry against the result, joining hits onto the output
    directory. -/
def tierRegex (listing : List Str) (outputPat : Str) : List Str :=
  let regexPat := strReplace (reEscape outputPat) (str "\\%03d") (str "\\d\x7b3\x7d")
  let toks := parseToks regexPat
  listing.foldl
    (fun acc file =>
      if reMatchTok toks file then acc ++ [pathJoin (outputDirOf outputPat) file]
      else acc) []

/-- The middle of a directory entry between the matched parts: the Python
    slice file[len(pre) : -len(suf)] when the suffix is truthy, file[len(pre):]
    otherwise (ffmpeg_wrapper.py 293). -/
def midOf (file pre suf : Str) : Str :=
  if suf ≠ [] then dropLastN (file.drop pre.length) suf.length
  else file.drop pre.length

/-- Tier three (ffmpeg_wrapper.py 276-297): split the pattern around the
    placeholder (which must occur exactly once), take the basename of the part
    before it, and accept each directory entry that starts with that, ends with
    the part after it, and has a non-empty all-digit middle (Python isdigit is
    false on the empty string), joining hits onto the output directory. -/
def tierDecomp (listing : List Str) (outputPat : Str) : List Str :=
  match strSplitSeq outputPat (str "%03d") with
  | [p0, p1] =>
    let pre := (pathSplit p0).2
    listing.foldl
      (fun acc file =>
        if strStartsWith file pre && strEndsWith file p1 then
          if midOf file pre p1 ≠ [] ∧ allDigits (midOf file pre p1) = true then
            acc ++ [pathJoin (outputDirOf outputPat) file]
          else acc
        else acc) []
  | _ => []

/-- SegmentCommand._find_segment_files (ffmpeg_wrapper.py 243-299): the three
    tiers attempted in order, first non-empty result wins. -/
def findSegmentFiles (listing : List Str) (outputPat : Str) : List Str :=
  let t1 := tierGlob listing outputPat
  if t1 ≠ [] then t1
  else
    let t2 := tierRegex listing outputPat
    if t2 ≠ [] then t2
    else tierDecomp listing outputPat

/-- The discovery result as SegmentCommand.execute returns it: the found files
    sorted ascending (ffmpeg_wrapper.py 231-236). -/
def executeDiscovery (listing : List Str) (outputPat : Str) : List Str :=
  pySorted (findSegmentFiles listing outputPat)

/-- Canonical output name built at splitter.py 116 and 175. -/
def canonicalName (o : SplitOptions) : Str :=
  o.output_name ++ str "." ++ o.output_extension

theorem addEvent_fs (st : St) (e : Event) : (addEvent st e).fs = st.fs := rfl

theorem fsSize_fsRemove_self (fs : Fs) (p : Str) : fsSize (fsRemove fs p) p = none := by
  unfold fsSize fsRemove
  rw [List.find?_eq_none.mpr, Option.map_none']
  intro x hx
  have := (List.mem_filter.mp hx).2
  simpa using this

/-! Concrete fixtures used by witnesses and counterexamples. -/

/-- A deterministic test environment: every probe parses to a document with
    duration 100, the segmenter writes no files, copies and moves succeed. -/
def envX : Env :=
  { probe := fun _ => ProbeRaw.okData { format := { duration := some (str "100") }, streams := [] }
  , seg := fun _ _ _ => some []
  , copyOk := fun _ _ => true
  , moveOk := fun _ _ => true
  , uid := fun _ => str "abcdef" }

/-- A ten-megabyte source file. -/
def stBig : St := St.mk [(str "src.mp4", 10000000)] [] 0

/-- A small source file below every budget used here. -/
def stSmall : St := St.mk [(str "src.mp4", 100)] [] 0

/-- A three-megabyte produced segment. -/
def stSeg : St := St.mk [(str "s0.mp4", 3000000)] [] 0

/-- A small produced segment. -/
def stSeg2 : St := St.mk [(str "s0.mp4", 1000)] [] 0

/-- The concrete request of the spec scenario: two-megabyte budget, safety
    factor ninety-five hundredths, four rounds. -/
def optsBig : SplitOptions :=
  SplitOptions.mk (str "src.mp4") (str "out") (str "mp4") 2000000 (95 / 100) 4

/-- The same request with the round budget already exhausted. -/
def opts0 : SplitOptions :=
  SplitOptions.mk (str "src.mp4") (str "out") (str "mp4") 2000000 (95 / 100) 0

/-- The parsed probe document envX returns. -/
def dataX : FfprobeData := { format := { duration := some (str "100") }, streams := [] }

/-- C1.  The claim says split_by_size never terminates by raising and that the
    Segment operation never throws an unhandled fault.  In the code, every
    request that passes validation, exceeds the size budget, and probes
    successfully with a truthy positive duration reaches the SegmentCommand
    construction of splitter.py 137, which supplies five positional arguments
    to an init that declares four besides self (ffmpeg_wrapper.py 198), so the
    call raises TypeError and split_by_size terminates with that unhandled
    exception. -/
theorem C1_split_raises_typeerror (env : Env) (st : St) (o : SplitOptions)
    (n : Nat) (d : ℚ) (data : FfprobeData)
    (hv : validateOptions st.fs o = none)
    (hn : fsSize st.fs o.source_file = some n)
    (hbig : ¬ ((n : Int) ≤ o.max_size_bytes))
    (hp : env.probe o.source_file = ProbeRaw.okData data)
    (hd : (parseMediaInfo data (some n)).duration = some d)
    (hdpos : ¬ (d ≤ 0)) :
    ∃ st', splitBySize env st o = PyR.raised st' ctorArityError := by
  simp only [splitBySize, probeMedia, hv, hn, Option.isNone_some, Bool.false_eq_true,
    if_false, if_neg hbig, hp, addEvent_fs, hd, if_neg hdpos,
    performSegmentation, constructSegmentCmd, splitterSegmentCallArity,
    segmentCommandInitArity]
  exact ⟨_, rfl⟩

/-- Evaluation helper: the probe document of envX parses to duration 100,
    whatever the on-disk size is. -/
theorem dataX_duration (sz : Option Nat) :
    (parseMediaInfo dataX sz).duration = some 100 := by
  have h : (parseMediaInfo dataX sz).duration =
      some ((1 : ℚ) * (digitsNum ['1', '0', '0'] : ℚ)) := rfl
  have h2 : digitsNum ['1', '0', '0'] = 100 := by decide
  rw [h, h2]
  norm_num

/-- Evaluation helper: one hundred is positive in the rationals. -/
theorem q100_pos : ¬ ((100 : ℚ) ≤ 0) := by norm_num

/-- Witness for C1 at the concrete spec scenario. -/
theorem C1_split_raises_typeerror_witness :
    ∃ st', splitBySize envX stBig optsBig = PyR.raised st' ctorArityError :=
  C1_split_raises_typeerror envX stBig optsBig 10000000 100 dataX
    (by decide) (by decide) (by decide) rfl (dataX_duration _) q100_pos

/-- C2.  The claim says an exhausted round budget folds the still-oversized
    file into the oversized list and split_by_size returns successfully.  In
    the code, with max_rounds non-positive _split_oversized_segment returns the
    segment itself (splitter.py 187), _process_segments then deletes that very
    file (line 163), and the size check of line 168 compares the None that
    get_file_size now returns with the int budget, raising TypeError: the batch
    aborts instead of returning the file as oversized. -/
theorem C2_exhausted_budget_raises (env : Env) (st : St) (o : SplitOptions)
    (seg : Str) (sz : Nat)
    (hsz : fsSize st.fs seg = some sz)
    (hbig : ¬ ((sz : Int) ≤ o.max_size_bytes))
    (hr : o.max_rounds ≤ 0) :
    processSegments env st [seg] o =
      PyR.raised (St.mk (fsRemove st.fs seg) (st.trace ++ [Event.delEv seg]) st.nuid)
        noneLeError := by
  simp only [processSegments, processLoop, hsz, if_neg hbig, Int.toNat_of_nonpos hr,
    splitOversized, fmDelete, Option.isSome_some, if_true, checkSplits,
    fsSize_fsRemove_self]

/-- Witness for C2: a single three-megabyte first-pass segment against a
    two-megabyte budget with zero rounds. -/
theorem C2_exhausted_budget_raises_witness :
    processSegments envX stSeg [str "s0.mp4"] opts0 =
      PyR.raised
        (St.mk (fsRemove stSeg.fs (str "s0.mp4"))
          (stSeg.trace ++ [Event.delEv (str "s0.mp4")]) stSeg.nuid)
        noneLeError :=
  C2_exhausted_budget_raises envX stSeg opts0 (str "s0.mp4") 3000000
    (by decide) (by decide) (by decide)

/-- C3.  The claim says a file that is itself a final leaf of the output set is
    never deleted and that returned lists exist on disk.  In the code, when the
    repair returns the still-oversized segment itself (here: round budget
    exhausted), _process_segments deletes exactly that file - the one that per
    the claim must be returned in the oversized list - and the run then raises,
    so no outcome with existing paths is ever produced.  (Independently,
    second-level intermediate files are never deleted, because the only delete
    is the top-level one of line 163.) -/
theorem C3_final_leaf_deleted (env : Env) (st : St) (o : SplitOptions)
    (seg : Str) (sz : Nat)
    (hsz : fsSize st.fs seg = some sz)
    (hbig : ¬ ((sz : Int) ≤ o.max_size_bytes))
    (hr : o.max_rounds ≤ 0) :
    ∃ e, (stOf (processSegments env st [seg] o)).trace = st.trace ++ [Event.delEv seg] ∧
      fsSize (stOf (processSegments env st [seg] o)).fs seg = none ∧
      processSegments env st [seg] o =
        PyR.raised (stOf (processSegments env st [seg] o)) e := by
  simp only [processSegments, processLoop, hsz, if_neg hbig, Int.toNat_of_nonpos hr,
    splitOversized, fmDelete, Option.isSome_some, if_true, checkSplits,
    fsSize_fsRemove_self]
  exact ⟨noneLeError, rfl, fsSize_fsRemove_self st.fs seg, rfl⟩

/-- Witness for C3 at the same concrete input. -/
theorem C3_final_leaf_deleted_witness :
    ∃ e, (stOf (processSegments envX stSeg [str "s0.mp4"] opts0)).trace =
        stSeg.trace ++ [Event.delEv (str "s0.mp4")] ∧
      fsSize (stOf (processSegments envX stSeg [str "s0.mp4"] opts0)).fs (str "s0.mp4") = none ∧
      processSegments envX stSeg [str "s0.mp4"] opts0 =
        PyR.raised (stOf (processSegments envX stSeg [str "s0.mp4"] opts0)) e :=
  C3_final_leaf_deleted envX stSeg opts0 (str "s0.mp4") 3000000
    (by decide) (by decide) (by decide)

theorem pySorted_nil : pySorted ([] : List Str) = [] := rfl

theorem pySorted_singleton (a : Str) : pySorted [a] = [a] := rfl

/-- C5.  A valid request whose source size is within the budget takes the copy
    fast path: the source is copied to the canonical name, the outcome accepts
    exactly that path with the copied flag set, and the trace extension is a
    single copy event - in particular no probe and no segmenter construction
    happens on this path. -/
theorem C5_fast_path (env : Env) (st : St) (o : SplitOptions) (n : Nat)
    (hv : validateOptions st.fs o = none)
    (hn : fsSize st.fs o.source_file = some n)
    (hle : (n : Int) ≤ o.max_size_bytes)
    (hcp : env.copyOk o.source_file (canonicalName o) = true) :
    splitBySize env st o =
      PyR.ok (St.mk (fsSet st.fs (canonicalName o) n)
          (st.trace ++ [Event.copyEv o.source_file (canonicalName o)]) st.nuid)
        (SplitResult.mk true [canonicalName o] [] true none) := by
  simp only [canonicalName] at hcp ⊢
  simp only [splitBySize, hv, hn, if_pos hle, copyFileStep, fmCopy, hcp, if_true]

/-- Witness for C5: a one-hundred-byte source against a two-megabyte budget. -/
theorem C5_fast_path_witness :
    splitBySize envX stSmall optsBig =
      PyR.ok (St.mk (fsSet stSmall.fs (canonicalName optsBig) 100)
          (stSmall.trace ++ [Event.copyEv (str "src.mp4") (canonicalName optsBig)])
          stSmall.nuid)
        (SplitResult.mk true [canonicalName optsBig] [] true none) :=
  C5_fast_path envX stSmall optsBig 100 (by decide) (by decide) (by decide) (by decide)

/-- C8.  When the processing loop leaves exactly one accepted file and no
    oversized file, _process_segments moves it to the canonical name and the
    outcome carries that canonical name as its single accepted path. -/
theorem C8_single_rename (env : Env) (st st1 : St) (o : SplitOptions)
    (segs : List Str) (f : Str)
    (hloop : processLoop env o segs st [] [] = PyR.ok st1 ([f], []))
    (hmv : (fmMove env st1 f (canonicalName o)).2 = true) :
    processSegments env st segs o =
      PyR.ok (fmMove env st1 f (canonicalName o)).1
        (SplitResult.mk true [canonicalName o] [] false none) := by
  simp only [canonicalName] at hmv ⊢
  simp only [processSegments, hloop, hmv, if_true, pySorted_singleton, pySorted_nil]

/-- Witness for C8: one small first-pass segment is renamed to out.mp4. -/
theorem C8_single_rename_witness :
    processSegments envX stSeg2 [str "s0.mp4"] optsBig =
      PyR.ok (fmMove envX stSeg2 (str "s0.mp4") (canonicalName optsBig)).1
        (SplitResult.mk true [canonicalName optsBig] [] false none) :=
  C8_single_rename envX stSeg2 stSeg2 optsBig [str "s0.mp4"] (str "s0.mp4")
    (by decide) (by decide)

/-- A zero-byte source file for the C9 counterexample. -/
def fsZero : Fs := [(str "src.mp4", 0)]

/-- The request of the C9 counterexample: existing source, positive budget,
    non-blank names. -/
def optsZero : SplitOptions :=
  SplitOptions.mk (str "src.mp4") (str "out") (str "mp4") 5 (95 / 100) 4

/-- C9 counterexample.  The claim says validation passes for every existing
    source file, including a zero-byte one.  In the code the existence check is
    Python truthiness of get_file_size, so an existing zero-byte file is
    rejected with the not-found message although it exists, the budget is
    positive and the names are non-blank. -/
theorem C9_counterexample :
    (fsSize fsZero optsZero.source_file).isSome = true ∧
    ¬ optsZero.max_size_bytes ≤ 0 ∧
    pyStrip optsZero.output_name ≠ [] ∧
    pyStrip optsZero.output_extension ≠ [] ∧
    validateOptions fsZero optsZero =
      some (str "Source file not found: " ++ optsZero.source_file) := by
  decide

/-- C9 amended.  Validation fails exactly when get_file_size of the source is
    falsy - the file is missing or exists with size zero - or the budget is
    non-positive or a stripped name is empty; and on a validation failure
    split_by_size returns the error result with the state unchanged: no event
    is recorded (no child process) and the filesystem is untouched. -/
theorem C9_validation_amended (env : Env) (st : St) (o : SplitOptions) :
    (validateOptions st.fs o ≠ none ↔
      (fsSize st.fs o.source_file = none ∨ fsSize st.fs o.source_file = some 0 ∨
        o.max_size_bytes ≤ 0 ∨ pyStrip o.output_name = [] ∨
        pyStrip o.output_extension = [])) ∧
    ∀ e, validateOptions st.fs o = some e →
      splitBySize env st o = PyR.ok st (SplitResult.mk false [] [] false (some e)) := by
  constructor
  · unfold validateOptions
    cases hx : fsSize st.fs o.source_file with
    | none => simp [truthySize]
    | some k =>
      cases k with
      | zero => simp [truthySize]
      | succ m =>
        simp only [truthySize, Bool.true_eq_false, if_false, reduceCtorEq, false_or]
        split_ifs with h1 h2 h3 <;> simp_all
  · intro e he
    simp only [splitBySize, he]

/-- Witness for C9 amended: the zero-byte source is rejected and split_by_size
    returns the error outcome without touching the state. -/
theorem C9_validation_amended_witness :
    validateOptions (St.mk fsZero [] 0).fs optsZero ≠ none ∧
    splitBySize envX (St.mk fsZero [] 0) optsZero =
      PyR.ok (St.mk fsZero [] 0)
        (SplitResult.mk false [] [] false
          (some (str "Source file not found: " ++ optsZero.source_file))) :=
  ⟨(C9_validation_amended envX (St.mk fsZero [] 0) optsZero).1.mpr
      (Or.inr (Or.inl (by decide))),
   (C9_validation_amended envX (St.mk fsZero [] 0) optsZero).2 _ (by decide)⟩

/-- First stream of the C10 counterexample: video typed but without a codec
    name. -/
def streamNoName : StreamObj :=
  { codec_type := some (str "video"), codec_name := none,
    width := some 100, height := some 50 }

/-- Second stream of the C10 counterexample: a named video stream with other
    dimensions. -/
def streamNamed : StreamObj :=
  { codec_type := some (str "video"), codec_name := some (str "h264"),
    width := some 640, height := some 480 }

/-- A probe document whose first video stream has no codec name. -/
def dataTwoVideo : FfprobeData := { format := {}, streams := [streamNoName, streamNamed] }

/-- C10 counterexample.  The claim says the descriptor takes video codec, width
    and height from the first stream whose codec_type is video.  In the code a
    video stream only sticks while the recorded codec name is falsy, so with a
    first video stream lacking codec_name the descriptor carries the width of
    the second video stream, not the first. -/
theorem C10_counterexample :
    dataTwoVideo.streams.head? = some streamNoName ∧
    streamNoName.codec_type = some (str "video") ∧
    streamNoName.width = some 100 ∧
    (parseMediaInfo dataTwoVideo none).width = some 640 ∧
    (parseMediaInfo dataTwoVideo none).video_codec = some (str "h264") := by
  decide

/-- Specification-side selector used by the amended C10: the first stream of
    the given codec type whose codec name is present and non-empty. -/
def firstNamedStream (ct : Str) (l : List StreamObj) : Option StreamObj :=
  l.find? (fun s => s.codec_type == some ct && truthyName s.codec_name)

theorem streamFold_stable_vc (l : List StreamObj) :
    ∀ (vc ac : Option Str) (w h : Option Int), truthyName vc = true →
      (streamFold l vc ac w h).1 = vc ∧ (streamFold l vc ac w h).2.2.1 = w ∧
        (streamFold l vc ac w h).2.2.2 = h := by
  induction l with
  | nil => intro vc ac w h _; exact ⟨rfl, rfl, rfl⟩
  | cons s rest ih =>
    intro vc ac w h hv
    simp only [streamFold, hv, Bool.not_true, Bool.and_false, Bool.false_eq_true, if_false]
    split
    · exact ih vc s.codec_name w h hv
    · exact ih vc ac w h hv

theorem streamFold_stable_ac (l : List StreamObj) :
    ∀ (vc ac : Option Str) (w h : Option Int), truthyName ac = true →
      (streamFold l vc ac w h).2.1 = ac := by
  induction l with
  | nil => intro vc ac w h _; rfl
  | cons s rest ih =>
    intro vc ac w h ha
    simp only [streamFold]
    split
    · exact ih s.codec_name ac s.width s.height ha
    · simp only [ha, Bool.not_true, Bool.and_false, Bool.false_eq_true, if_false]
      exact ih vc ac w h ha

theorem streamFold_finds_video :
    ∀ (l : List StreamObj) (s : StreamObj),
      firstNamedStream (str "video") l = some s →
      ∀ (vc ac : Option Str) (w h : Option Int), truthyName vc = false →
        (streamFold l vc ac w h).1 = s.codec_name ∧
        (streamFold l vc ac w h).2.2.1 = s.width ∧
        (streamFold l vc ac w h).2.2.2 = s.height := by
  intro l
  induction l with
  | nil => intro s hf; simp [firstNamedStream] at hf
  | cons t rest ih =>
    intro s hf vc ac w h hvc
    by_cases ht : (t.codec_type == some (str "video") && truthyName t.codec_name) = true
    · have ht2 := ht
      rw [Bool.and_eq_true] at ht2
      have hs : s = t := by
        simp only [firstNamedStream, List.find?, ht] at hf
        exact (Option.some_injective _ hf).symm
      subst hs
      simp only [streamFold, ht2.1, hvc, Bool.not_false, Bool.and_true, if_true]
      exact streamFold_stable_vc rest s.codec_name ac s.width s.height ht2.2
    · have htf : (t.codec_type == some (str "video") && truthyName t.codec_name) = false := by
        simpa only [Bool.not_eq_true] using ht
      have hf' : firstNamedStream (str "video") rest = some s := by
        simpa only [firstNamedStream, List.find?, htf] using hf
      by_cases htv : (t.codec_type == some (str "video")) = true
      · have htn : truthyName t.codec_name = false := by
          cases hn : truthyName t.codec_name
          · rfl
          · exact absurd (by simp [htv, hn]) ht
        simp only [streamFold, htv, hvc, Bool.not_false, Bool.and_true, if_true]
        exact ih s hf' t.codec_name ac t.width t.height htn
      · have htv2 : (t.codec_type == some (str "video")) = false := by
          simpa only [Bool.not_eq_true] using htv
        simp only [streamFold, htv2, Bool.false_and, Bool.false_eq_true, if_false]
        split
        · exact ih s hf' vc t.codec_name w h hvc
        · exact ih s hf' vc ac w h hvc

theorem streamFold_finds_audio :
    ∀ (l : List StreamObj) (s : StreamObj),
      firstNamedStream (str "audio") l = some s →
      ∀ (vc ac : Option Str) (w h : Option Int), truthyName ac = false →
        (streamFold l vc ac w h).2.1 = s.codec_name := by
  intro l
  induction l with
  | nil => intro s hf; simp [firstNamedStream] at hf
  | cons t rest ih =>
    intro s hf vc ac w h hac
    by_cases ht : (t.codec_type == some (str "audio") && truthyName t.codec_name) = true
    · have ht2 := ht
      rw [Bool.and_eq_true] at ht2
      have hs : s = t := by
        simp only [firstNamedStream, List.find?, ht] at hf
        exact (Option.some_injective _ hf).symm
      have htv : (t.codec_type == some (str "video")) = false := by
        rw [eq_of_beq ht2.1]
        decide
      subst hs
      simp only [streamFold, htv, Bool.false_and, Bool.false_eq_true, if_false,
        ht2.1, hac, Bool.not_false, Bool.and_true, if_true]
      exact streamFold_stable_ac rest vc s.codec_name w h ht2.2
    · have htf : (t.codec_type == some (str "audio") && truthyName t.codec_name) = false := by
        simpa only [Bool.not_eq_true] using ht
      have hf' : firstNamedStream (str "audio") rest = some s := by
        simpa only [firstNamedStream, List.find?, htf] using hf
      simp only [streamFold]
      split
      · exact ih s hf' t.codec_name ac t.width t.height hac
      · by_cases hta : (t.codec_type == some (str "audio")) = true
        · have htn : truthyName t.codec_name = false := by
            cases hn : truthyName t.codec_name
            · rfl
            · exact absurd (by simp [hta, hn]) ht
          simp only [hta, hac, Bool.not_false, Bool.and_true, if_true]
          exact ih s hf' vc t.codec_name w h htn
        · have hta2 : (t.codec_type == some (str "audio")) = false := by
            simpa only [Bool.not_eq_true] using hta
          simp only [hta2, Bool.false_and, Bool.false_eq_true, if_false]
          exact ih s hf' vc ac w h hac

/-- C10 amended.  The descriptor takes video codec, width and height from the
    first video stream whose codec name is present and non-empty (earlier video
    streams with a falsy codec name are overwritten), the audio codec likewise
    from the first such audio stream, and duration and bit rate are absent
    whenever the container field is missing or non-numeric. -/
theorem C10_parse_amended (data : FfprobeData) (sz : Option Nat) :
    (∀ s, firstNamedStream (str "video") data.streams = some s →
      (parseMediaInfo data sz).video_codec = s.codec_name ∧
      (parseMediaInfo data sz).width = s.width ∧
      (parseMediaInfo data sz).height = s.height) ∧
    (∀ s, firstNamedStream (str "audio") data.streams = some s →
      (parseMediaInfo data sz).audio_codec = s.codec_name) ∧
    (data.format.duration = none → (parseMediaInfo data sz).duration = none) ∧
    (∀ t, data.format.duration = some t → parseDecQ t = none →
      (parseMediaInfo data sz).duration = none) ∧
    (data.format.bit_rate = none → (parseMediaInfo data sz).bitrate = none) ∧
    (∀ t, data.format.bit_rate = some t → parseIntZ t = none →
      (parseMediaInfo data sz).bitrate = none) := by
  refine ⟨?_, ?_, ?_, ?_, ?_, ?_⟩
  · intro s hf
    have := streamFold_finds_video data.streams s hf none none none none rfl
    simpa only [parseMediaInfo] using this
  · intro s hf
    have := streamFold_finds_audio data.streams s hf none none none none rfl
    simpa only [parseMediaInfo] using this
  · intro hd
    simp only [parseMediaInfo, hd]
  · intro t hd hp
    simp only [parseMediaInfo, hd]
    split <;> simp [hp]
  · intro hb
    simp only [parseMediaInfo, hb]
  · intro t hb hp
    simp only [parseMediaInfo, hb]
    split <;> simp [hp]

/-- Witness for C10 amended on the two-video-stream document. -/
theorem C10_parse_amended_witness :
    (parseMediaInfo dataTwoVideo none).video_codec = streamNamed.codec_name ∧
    (parseMediaInfo dataTwoVideo none).width = streamNamed.width ∧
    (parseMediaInfo dataTwoVideo none).height = streamNamed.height :=
  (C10_parse_amended dataTwoVideo none).1 streamNamed (by decide)

theorem firstPass_ctor_trace (env : Env) (st : St) (o : SplitOptions)
    (n : Nat) (d : ℚ) (data : FfprobeData)
    (hv : validateOptions st.fs o = none)
    (hn : fsSize st.fs o.source_file = some n)
    (hbig : ¬ ((n : Int) ≤ o.max_size_bytes))
    (hp : env.probe o.source_file = ProbeRaw.okData data)
    (hd : (parseMediaInfo data (some n)).duration = some d)
    (hdpos : ¬ (d ≤ 0)) :
    (stOf (splitBySize env st o)).trace = st.trace ++
      [Event.probeEv o.source_file,
       Event.segCtor o.source_file (o.output_name ++ str "_%03d." ++ o.output_extension)
         (max (1 / 2) ((o.max_size_bytes : ℚ) / ((n : ℚ) / d) * o.safety_factor))] := by
  simp only [splitBySize, probeMedia, hv, hn, Option.isNone_some, Bool.false_eq_true,
    if_false, if_neg hbig, hp, addEvent_fs, hd, if_neg hdpos,
    performSegmentation, constructSegmentCmd, splitterSegmentCallArity,
    segmentCommandInitArity]
  simp [stOf, addEvent, str]

theorem repair_ctor_trace (env : Env) (st : St) (seg : Str) (maxS : Int)
    (fuel : Nat) (cur : Nat) (d : ℚ) (data : FfprobeData)
    (hp : env.probe seg = ProbeRaw.okData data)
    (hsz : fsSize st.fs seg = some cur)
    (hd : (parseMediaInfo data (some cur)).duration = some d)
    (hd0 : ¬ (d = 0))
    (hbig : ¬ ((cur : Int) ≤ maxS)) :
    (stOf (splitOversized env st seg maxS (fuel + 1))).trace = st.trace ++
      [Event.probeEv seg,
       Event.segCtor seg
         (rsplitBase seg ++ str "_sub_" ++ env.uid st.nuid ++ str "_%03d." ++ rsplitExt seg)
         (max (1 / 2) ((maxS : ℚ) / ((cur : ℚ) / d) * (95 / 100)))] := by
  simp only [splitOversized, probeMedia, hsz, Option.isNone_some, Bool.false_eq_true,
    if_false, hp, addEvent_fs, hd, if_neg hd0, if_neg hbig,
    constructSegmentCmd, splitterSegmentCallArity, segmentCommandInitArity]
  simp [stOf, addEvent, str]

/-- Evaluation helper: the spec scenario duration is exactly nineteen. -/
theorem spec_duration_nineteen :
    max ((1 : ℚ) / 2)
      (((2000000 : Int) : ℚ) / (((10000000 : Nat) : ℚ) / (100 : ℚ)) * (95 / 100)) = 19 := by
  rw [max_eq_right] <;> norm_num

/-- C4.  Part one: the duration argument at the first-pass SegmentCommand
    construction site equals max(0.5, (max_size_bytes / (source_size /
    duration)) * safety_factor).  Part two: on the spec scenario (source
    10000000 bytes, duration 100, budget 2000000, safety factor 0.95) it is
    exactly 19.  Part three: the recursive repair recomputes the formula from
    the oversized segment's own size and duration with the literal constant
    ninety-five hundredths - _split_oversized_segment takes no caller-supplied
    safety factor at all, so the result is independent of it. -/
theorem C4_duration_formula :
    (∀ (env : Env) (st : St) (o : SplitOptions) (n : Nat) (d : ℚ) (data : FfprobeData),
      validateOptions st.fs o = none →
      fsSize st.fs o.source_file = some n →
      ¬ ((n : Int) ≤ o.max_size_bytes) →
      env.probe o.source_file = ProbeRaw.okData data →
      (parseMediaInfo data (some n)).duration = some d →
      ¬ (d ≤ 0) →
      (stOf (splitBySize env st o)).trace = st.trace ++
        [Event.probeEv o.source_file,
         Event.segCtor o.source_file (o.output_name ++ str "_%03d." ++ o.output_extension)
           (max (1 / 2) ((o.max_size_bytes : ℚ) / ((n : ℚ) / d) * o.safety_factor))]) ∧
    ((stOf (splitBySize envX stBig optsBig)).trace =
      [Event.probeEv (str "src.mp4"),
       Event.segCtor (str "src.mp4") (str "out_%03d.mp4") 19]) ∧
    (∀ (env : Env) (st : St) (seg : Str) (maxS : Int) (fuel : Nat)
        (cur : Nat) (d : ℚ) (data : FfprobeData),
      env.probe seg = ProbeRaw.okData data →
      fsSize st.fs seg = some cur →
      (parseMediaInfo data (some cur)).duration = some d →
      ¬ (d = 0) →
      ¬ ((cur : Int) ≤ maxS) →
      (stOf (splitOversized env st seg maxS (fuel + 1))).trace = st.trace ++
        [Event.probeEv seg,
         Event.segCtor seg
           (rsplitBase seg ++ str "_sub_" ++ env.uid st.nuid ++ str "_%03d." ++ rsplitExt seg)
           (max (1 / 2) ((maxS : ℚ) / ((cur : ℚ) / d) * (95 / 100)))]) := by
  refine ⟨firstPass_ctor_trace, ?_, repair_ctor_trace⟩
  have h := firstPass_ctor_trace envX stBig optsBig 10000000 100 dataX
    (by decide) (by decide) (by decide) rfl (dataX_duration _) q100_pos
  rw [h]
  have h19 : max ((1 : ℚ) / 2)
      ((optsBig.max_size_bytes : ℚ) / (((10000000 : Nat) : ℚ) / (100 : ℚ)) *
        optsBig.safety_factor) = 19 := by
    show max ((1 : ℚ) / 2)
      (((2000000 : Int) : ℚ) / (((10000000 : Nat) : ℚ) / (100 : ℚ)) * (95 / 100)) = 19
    exact spec_duration_nineteen
  rw [h19]
  rfl

/-- Witness for C4, instantiating part three on a concrete oversized segment:
    a three-megabyte segment of duration one hundred against a one-megabyte
    budget gives the repair duration from the fixed internal factor. -/
theorem C4_duration_formula_witness :
    (stOf (splitOversized envX stSeg (str "s0.mp4") 1000000 4)).trace = stSeg.trace ++
      [Event.probeEv (str "s0.mp4"),
       Event.segCtor (str "s0.mp4")
         (rsplitBase (str "s0.mp4") ++ str "_sub_" ++ envX.uid stSeg.nuid ++
           str "_%03d." ++ rsplitExt (str "s0.mp4"))
         (max (1 / 2) (((1000000 : Int) : ℚ) / (((3000000 : Nat) : ℚ) / 100) * (95 / 100)))] :=
  C4_duration_formula.2.2 envX stSeg (str "s0.mp4") 1000000 3 3000000 100 dataX
    rfl (by decide) (dataX_duration _) (by decide) (by decide)

/-- Every segmenter invocation of the environment returns at most k files. -/
def SegBound (env : Env) (k : Nat) : Prop :=
  ∀ i p d files, env.seg i p d = some files → files.length ≤ k

/-- Bound on the number of events one recursive repair call can add with the
    given round budget, when every tool invocation returns at most k files:
    one probe and one construction site per level, then at most k children a
    level deeper. -/
def repairWork (k : Nat) : Nat → Nat
  | 0 => 0
  | fuel + 1 => 2 + k * repairWork k fuel

/-- Bound on the number of events a whole splitBySize call can add. -/
def splitWork (k : Nat) (fuel : Nat) : Nat :=
  3 + k * (repairWork k fuel + 1)

theorem constructSegmentCmd_raises (st : St) (a b c : Str) (d : ℚ) :
    constructSegmentCmd st a b c d = PyR.raised st ctorArityError := rfl

theorem probeMedia_trace_le (env : Env) (st : St) (p : Str) :
    (probeMedia env st p).1.trace.length ≤ st.trace.length + 1 := by
  unfold probeMedia
  split
  · simp
  · split <;> simp [addEvent]

theorem fmCopy_trace_le (env : Env) (st : St) (a b : Str) :
    (fmCopy env st a b).1.trace.length ≤ st.trace.length + 1 := by
  unfold fmCopy
  split
  · simp
  · split <;> simp

/-- C7.  Termination with bounded work: every run of the recursive repair and
    of splitBySize adds at most an explicit number of events (probe runs,
    construction sites, file operations) bounded by a function of the round
    budget and a bound k on the segment count of every tool invocation.  The
    repair is compiled by recursion on the round counter carried as fuel, so
    its call depth is bounded by max_recursion_rounds by construction; the
    bound here is immediate because the construction site of splitter.py 213
    raises before any recursive call (the C1 arity fault), making the recursion
    unreachable. -/
theorem C7_termination_bound (env : Env) (k : Nat) (hk : SegBound env k) :
    (∀ (st : St) (seg : Str) (maxS : Int) (fuel : Nat),
      (stOf (splitOversized env st seg maxS fuel)).trace.length ≤
        st.trace.length + repairWork k fuel) ∧
    (∀ (st : St) (o : SplitOptions),
      (stOf (splitBySize env st o)).trace.length ≤
        st.trace.length + splitWork k o.max_rounds.toNat) := by
  have hrep : ∀ (st : St) (seg : Str) (maxS : Int) (fuel : Nat),
      (stOf (splitOversized env st seg maxS fuel)).trace.length ≤
        st.trace.length + repairWork k fuel := by
    intro st seg maxS fuel
    cases fuel with
    | zero => simp [splitOversized, stOf, repairWork]
    | succ m =>
      have hp := probeMedia_trace_le env st seg
      simp only [splitOversized, constructSegmentCmd_raises, repairWork]
      split
      · simp only [stOf]; omega
      · split
        · simp only [stOf]; omega
        · split
          · simp only [stOf]; omega
          · split
            · simp only [stOf]; omega
            · split
              · simp only [stOf]; omega
              · split
                · simp only [stOf]; omega
                · simp only [stOf, addEvent]
                  simp only [List.length_append, List.length_singleton]
                  omega
  refine ⟨hrep, ?_⟩
  intro st o
  unfold splitBySize
  split
  · simp only [stOf, splitWork]; omega
  · split
    · simp only [stOf, splitWork]; omega
    · split
      · unfold copyFileStep
        have hc := fmCopy_trace_le env st o.source_file (canonicalName o)
        simp only [canonicalName] at hc
        dsimp only
        split <;> simp only [stOf, splitWork] <;> omega
      · have hp := probeMedia_trace_le env st o.source_file
        unfold performSegmentation
        dsimp only
        simp only [constructSegmentCmd_raises]
        split
        · simp only [stOf, splitWork]; omega
        · split
          · simp only [stOf, splitWork]; omega
          · split
            · simp only [stOf, splitWork]; omega
            · split
              · simp only [stOf, splitWork]; omega
              · simp only [stOf, splitWork, addEvent, List.length_append,
                  List.length_singleton]
                omega

/-- The test environment produces no segment files at all. -/
theorem envX_segBound : SegBound envX 0 := by
  intro i p d files h
  have h2 : some ([] : List (Str × Nat)) = some files := h
  cases h2
  exact Nat.le_refl 0

/-- Witness for C7 on the concrete spec scenario. -/
theorem C7_termination_bound_witness :
    (stOf (splitBySize envX stBig optsBig)).trace.length ≤
      stBig.trace.length + splitWork 0 optsBig.max_rounds.toNat :=
  (C7_termination_bound envX 0 envX_segBound).2 stBig optsBig

theorem strLe_total : ∀ a b : Str, strLe a b = true ∨ strLe b a = true := by
  intro a
  induction a with
  | nil => intro b; left; rfl
  | cons x xs ih =>
    intro b
    cases b with
    | nil => right; rfl
    | cons y ys =>
      by_cases hxy : x = y
      · subst hxy
        simp only [strLe, if_pos rfl]
        exact ih ys
      · rcases lt_or_gt_of_ne hxy with hlt | hgt
        · left
          simp only [strLe, if_neg hxy, decide_eq_true_eq]
          exact hlt
        · right
          simp only [strLe, if_neg (Ne.symm hxy), decide_eq_true_eq]
          exact hgt

theorem strLe_trans : ∀ a b c : Str, strLe a b = true → strLe b c = true →
    strLe a c = true := by
  intro a
  induction a with
  | nil => intro b c _ _; rfl
  | cons x xs ih =>
    intro b c hab hbc
    cases b with
    | nil => simp [strLe] at hab
    | cons y ys =>
      cases c with
      | nil => simp [strLe] at hbc
      | cons z zs =>
        simp only [strLe] at hab hbc ⊢
        by_cases hxy : x = y
        · subst hxy
          rw [if_pos rfl] at hab
          by_cases hxz : x = z
          · subst hxz
            rw [if_pos rfl] at hbc
            rw [if_pos rfl]
            exact ih ys zs hab hbc
          · rw [if_neg hxz] at hbc
            rw [if_neg hxz]
            exact hbc
        · rw [if_neg hxy] at hab
          have hxlty : x < y := by simpa [decide_eq_true_eq] using hab
          by_cases hyz : y = z
          · subst hyz
            rw [if_neg hxy]
            simpa [decide_eq_true_eq] using hxlty
          · rw [if_neg hyz] at hbc
            have hyltz : y < z := by simpa [decide_eq_true_eq] using hbc
            have hxltz : x < z := lt_trans hxlty hyltz
            rw [if_neg (ne_of_lt hxltz)]
            simpa [decide_eq_true_eq] using hxltz

instance : IsTotal Str strLeP := ⟨strLe_total⟩

instance : IsTrans Str strLeP := ⟨strLe_trans⟩

theorem strStartsWith_append (p X : Str) : strStartsWith (p ++ X) p = true := by
  induction p with
  | nil => cases X <;> rfl
  | cons c cs ih => simp [strStartsWith, ih]

theorem strEndsWith_append (X suf : Str) : strEndsWith (X ++ suf) suf = true := by
  unfold strEndsWith
  rw [List.reverse_append]
  exact strStartsWith_append _ _

theorem beq_eq_false_of_digit (x c : Char) (hx : isDigitCh x = true)
    (hc : isDigitCh c = false) : (c == x) = false := by
  cases h : (c == x)
  · rfl
  · have he := eq_of_beq h
    rw [he, hx] at hc
    exact Bool.noConfusion hc

/-- Accumulator form of a filtering fold that appends one path per hit. -/
theorem foldl_no_hits {α : Type} (step : List Str → α → List Str) :
    ∀ (l : List α), (∀ acc f, f ∈ l → step acc f = acc) →
      ∀ acc, l.foldl step acc = acc := by
  intro l
  induction l with
  | nil => intro _ acc; rfl
  | cons x xs ih =>
    intro hstep acc
    simp only [List.foldl_cons]
    rw [hstep acc x (List.mem_cons_self x xs)]
    exact ih (fun a f hf => hstep a f (List.mem_cons_of_mem x hf)) acc

theorem foldl_collect {α : Type} (step : List Str → α → List Str) (g : α → Str) :
    ∀ (l : List α), (∀ acc f, f ∈ l → step acc f = acc ++ [g f]) →
      ∀ acc, l.foldl step acc = acc ++ l.map g := by
  intro l
  induction l with
  | nil => intro _ acc; simp
  | cons x xs ih =>
    intro hstep acc
    simp only [List.foldl_cons, List.map_cons]
    rw [hstep acc x (List.mem_cons_self x xs),
      ih (fun a f hf => hstep a f (List.mem_cons_of_mem x hf)) (acc ++ [g x])]
    simp [List.append_assoc]

/-- The resolver pattern of the C6 scenario: directory part, literal stem, the
    placeholder, and the extension. -/
def patC6 : Str := str "out/seg_%03d.mp4"

/-- Directory entries instantiating the pattern with the given middles. -/
def entriesC6 (mids : List Str) : List Str :=
  mids.map (fun m => str "seg_" ++ m ++ str ".mp4")

/-- The directory-joined paths the resolver should produce. -/
def joinedC6 (mids : List Str) : List Str :=
  mids.map (fun m => str "out/seg_" ++ m ++ str ".mp4")

/-- C6 counterexample.  On a directory holding exactly the two instantiations
    of the pattern, the glob tier returns both files but the regex tier
    returns none - under the declared Python (3.7 or later) re.escape leaves
    the percent sign unescaped, so replacing the escaped placeholder is a
    no-op and the regex still contains the literal placeholder (it also
    carries the directory prefix that listdir names lack).  The three tiers
    therefore do not return the same N files. -/
theorem C6_counterexample :
    tierGlob (entriesC6 [str "000", str "001"]) patC6 =
      [str "out/seg_000.mp4", str "out/seg_001.mp4"] ∧
    tierRegex (entriesC6 [str "000", str "001"]) patC6 = [] ∧
    tierGlob (entriesC6 [str "000", str "001"]) patC6 ≠
      tierRegex (entriesC6 [str "000", str "001"]) patC6 := by
  decide

theorem fnmatch_entry (a b c : Char) (ha : isDigitCh a = true)
    (hb : isDigitCh b = true) (hc : isDigitCh c = true) :
    fnmatchChars (str "seg_*.mp4") (str "seg_" ++ [a, b, c] ++ str ".mp4") = true := by
  have h1 : ('.' == a) = false := beq_eq_false_of_digit a '.' ha (by decide)
  have h2 : ('.' == b) = false := beq_eq_false_of_digit b '.' hb (by decide)
  have h3 : ('.' == c) = false := beq_eq_false_of_digit c '.' hc (by decide)
  have e1 : fnmatchChars (str "seg_*.mp4") (str "seg_" ++ [a, b, c] ++ str ".mp4") =
      (fnmatchFuel 15 (str ".mp4") (a :: b :: c :: str ".mp4") ||
        fnmatchFuel 15 (str "*.mp4") (b :: c :: str ".mp4")) := rfl
  have e2 : fnmatchFuel 15 (str ".mp4") (a :: b :: c :: str ".mp4") =
      (('.' == a) && fnmatchFuel 14 (str "mp4") (b :: c :: str ".mp4")) := rfl
  have e3 : fnmatchFuel 15 (str "*.mp4") (b :: c :: str ".mp4") =
      (fnmatchFuel 14 (str ".mp4") (b :: c :: str ".mp4") ||
        fnmatchFuel 14 (str "*.mp4") (c :: str ".mp4")) := rfl
  have e4 : fnmatchFuel 14 (str ".mp4") (b :: c :: str ".mp4") =
      (('.' == b) && fnmatchFuel 13 (str "mp4") (c :: str ".mp4")) := rfl
  have e5 : fnmatchFuel 14 (str "*.mp4") (c :: str ".mp4") =
      (fnmatchFuel 13 (str ".mp4") (c :: str ".mp4") ||
        fnmatchFuel 13 (str "*.mp4") (str ".mp4")) := rfl
  have e6 : fnmatchFuel 13 (str ".mp4") (c :: str ".mp4") =
      (('.' == c) && fnmatchFuel 12 (str "mp4") (str ".mp4")) := rfl
  rw [e1, e2, e3, e4, e5, e6, h1, h2, h3]
  simp only [Bool.false_and, Bool.false_or]
  decide

theorem drop4_seg (X : Str) : (str "seg_" ++ X).drop 4 = X :=
  List.drop_left (str "seg_") X

theorem dropLastN_mp4 (m : Str) : dropLastN (m ++ str ".mp4") 4 = m := by
  unfold dropLastN
  rw [List.reverse_append]
  have h : ((str ".mp4").reverse ++ m.reverse).drop 4 = m.reverse :=
    List.drop_left (str ".mp4").reverse m.reverse
  rw [h, List.reverse_reverse]

theorem map_pathJoin_entries (mids : List Str) :
    (entriesC6 mids).map (fun n => pathJoin (str "out") n) = joinedC6 mids := by
  unfold entriesC6 joinedC6
  rw [List.map_map]
  rfl

/-- C6 amended.  For any directory populated by files instantiating the
    fixed-width numeric placeholder pattern, the glob tier and the
    decomposition tier each return the same N directory-joined files, while
    the regex tier returns none (its placeholder substitution misses because
    re.escape on Python 3.7 and later leaves the percent sign unescaped, and
    its regex retains the directory prefix that bare directory entries lack);
    the first-non-empty chain therefore resolves through the glob tier, and
    the final result of execute is sorted lexicographically (a sorted
    permutation of the glob result). -/
theorem C6_resolver_amended (mids : List Str)
    (h : ∀ m ∈ mids, m.length = 3 ∧ allDigits m = true) :
    tierGlob (entriesC6 mids) patC6 = joinedC6 mids ∧
    tierDecomp (entriesC6 mids) patC6 = joinedC6 mids ∧
    tierRegex (entriesC6 mids) patC6 = [] ∧
    findSegmentFiles (entriesC6 mids) patC6 = tierGlob (entriesC6 mids) patC6 ∧
    List.Sorted strLeP (executeDiscovery (entriesC6 mids) patC6) ∧
    (executeDiscovery (entriesC6 mids) patC6).Perm
      (findSegmentFiles (entriesC6 mids) patC6) := by
  have hmem : ∀ f ∈ entriesC6 mids, ∃ x y z, isDigitCh x = true ∧ isDigitCh y = true ∧
      isDigitCh z = true ∧ f = str "seg_" ++ [x, y, z] ++ str ".mp4" := by
    intro f hf
    obtain ⟨m, hm, rfl⟩ := List.mem_map.mp hf
    obtain ⟨hlen, hdig⟩ := h m hm
    obtain ⟨x, y, z, rfl⟩ := List.length_eq_three.mp hlen
    have hd : isDigitCh x = true ∧ (isDigitCh y = true ∧ isDigitCh z = true) := by
      simpa [allDigits] using hdig
    exact ⟨x, y, z, hd.1, hd.2.1, hd.2.2, rfl⟩
  have hglob : tierGlob (entriesC6 mids) patC6 = joinedC6 mids := by
    have hrep : strReplace patC6 (str "%03d") (str "*") = str "out/seg_*.mp4" := by decide
    have hps : pathSplit (str "out/seg_*.mp4") = (str "out", str "seg_*.mp4") := by decide
    have hhid : List.filter (fun n => !(n.head? == some '.')) (entriesC6 mids) =
        entriesC6 mids := by
      rw [List.filter_eq_self]
      intro f hf
      obtain ⟨x, y, z, hx, hy, hz, rfl⟩ := hmem f hf
      rfl
    have hmatch : List.filter (fun n => fnmatchChars (str "seg_*.mp4") n)
        (entriesC6 mids) = entriesC6 mids := by
      rw [List.filter_eq_self]
      intro f hf
      obtain ⟨x, y, z, hx, hy, hz, rfl⟩ := hmem f hf
      exact fnmatch_entry x y z hx hy hz
    simp only [tierGlob, hrep, globGlob, hps, globFilter]
    rw [if_neg (by decide : ¬ (str "seg_*.mp4").head? = some '.')]
    rw [hhid, hmatch]
    exact map_pathJoin_entries mids
  have hdec : tierDecomp (entriesC6 mids) patC6 = joinedC6 mids := by
    have hsplit : strSplitSeq patC6 (str "%03d") = [str "out/seg_", str ".mp4"] := by decide
    have hpre : (pathSplit (str "out/seg_")).2 = str "seg_" := by decide
    have hdir : outputDirOf patC6 = str "out" := by decide
    have hstep : ∀ (acc : List Str) (f : Str), f ∈ entriesC6 mids →
        (if strStartsWith f (pathSplit (str "out/seg_")).2 &&
            strEndsWith f (str ".mp4") then
          if midOf f (pathSplit (str "out/seg_")).2 (str ".mp4") ≠ [] ∧
              allDigits (midOf f (pathSplit (str "out/seg_")).2 (str ".mp4")) = true then
            acc ++ [pathJoin (outputDirOf patC6) f]
          else acc
        else acc) = acc ++ [pathJoin (outputDirOf patC6) f] := by
      intro acc f hf
      obtain ⟨x, y, z, hx, hy, hz, rfl⟩ := hmem f hf
      have hcond : (strStartsWith (str "seg_" ++ [x, y, z] ++ str ".mp4")
          (pathSplit (str "out/seg_")).2 &&
          strEndsWith (str "seg_" ++ [x, y, z] ++ str ".mp4") (str ".mp4")) = true := by
        rw [Bool.and_eq_true]
        constructor
        · rw [hpre]
          exact strStartsWith_append (str "seg_") ([x, y, z] ++ str ".mp4")
        · exact strEndsWith_append (str "seg_" ++ [x, y, z]) (str ".mp4")
      rw [if_pos hcond]
      have hmid : midOf (str "seg_" ++ [x, y, z] ++ str ".mp4")
          (pathSplit (str "out/seg_")).2 (str ".mp4") = [x, y, z] := by
        rw [hpre]
        unfold midOf
        rw [if_pos (by decide : (str ".mp4") ≠ [])]
        have hdrop : (str "seg_" ++ [x, y, z] ++ str ".mp4").drop (str "seg_").length =
            [x, y, z] ++ str ".mp4" := List.drop_left (str "seg_") ([x, y, z] ++ str ".mp4")
        rw [hdrop]
        exact dropLastN_mp4 [x, y, z]
      rw [hmid]
      rw [if_pos]
      constructor
      · simp
      · simp [allDigits, hx, hy, hz]
    simp only [tierDecomp, hsplit]
    have hfold := foldl_collect
      (fun acc file =>
        if strStartsWith file (pathSplit (str "out/seg_")).2 &&
            strEndsWith file (str ".mp4") then
          if midOf file (pathSplit (str "out/seg_")).2 (str ".mp4") ≠ [] ∧
              allDigits (midOf file (pathSplit (str "out/seg_")).2 (str ".mp4")) = true then
            acc ++ [pathJoin (outputDirOf patC6) file]
          else acc
        else acc)
      (fun n => pathJoin (outputDirOf patC6) n) (entriesC6 mids) hstep []
    rw [hfold, List.nil_append]
    simp only [hdir]
    exact map_pathJoin_entries mids
  have hreg : tierRegex (entriesC6 mids) patC6 = [] := by
    show List.foldl _ [] (entriesC6 mids) = []
    refine foldl_no_hits _ (entriesC6 mids) ?_ []
    intro acc f hf
    obtain ⟨x, y, z, hx, hy, hz, rfl⟩ := hmem f hf
    rfl
  have hfind : findSegmentFiles (entriesC6 mids) patC6 = tierGlob (entriesC6 mids) patC6 := by
    by_cases hne : tierGlob (entriesC6 mids) patC6 = []
    · have hj : joinedC6 mids = [] := hglob ▸ hne
      simp [findSegmentFiles, hne, hreg, hdec, hj]
    · simp [findSegmentFiles, hne]
  refine ⟨hglob, hdec, hreg, hfind, ?_, ?_⟩
  · exact List.sorted_insertionSort strLeP (findSegmentFiles (entriesC6 mids) patC6)
  · exact List.perm_insertionSort strLeP (findSegmentFiles (entriesC6 mids) patC6)

/-- Witness for C6 amended on the two-file directory. -/
theorem C6_resolver_amended_witness :
    tierGlob (entriesC6 [str "000", str "001"]) patC6 = joinedC6 [str "000", str "001"] ∧
    tierDecomp (entriesC6 [str "000", str "001"]) patC6 = joinedC6 [str "000", str "001"] ∧
    tierRegex (entriesC6 [str "000", str "001"]) patC6 = [] ∧
    findSegmentFiles (entriesC6 [str "000", str "001"]) patC6 =
      tierGlob (entriesC6 [str "000", str "001"]) patC6 ∧
    List.Sorted strLeP (executeDiscovery (entriesC6 [str "000", str "001"]) patC6) ∧
    (executeDiscovery (entriesC6 [str "000", str "001"]) patC6).Perm
      (findSegmentFiles (entriesC6 [str "000", str "001"]) patC6) :=
  C6_resolver_amended [str "000", str "001"] (by decide)

end VideoLib
